import Mathlib

/-!
Verification development for the FieldStation42 infobar overlay and series
index (files `fs42/overlays/infobar_sv.py`, `fs42/overlays/bridge.py`,
`fs42/overlays/monkey_infobar_hook.py`, `fs42/series.py`).

Modelling conventions:
* Instants from `datetime` are integers counting microseconds since the Unix
  epoch, in UTC (Python `datetime` has microsecond resolution).
* Wall-clock instants from `time.time()` used by the fade state machine are
  rationals (seconds).
* A Python/JSON value is the inductive `JValue`; numbers are modelled as
  integers (the claims under study never depend on non-integral numerics).
* Python exceptions are modelled with `Except Unit`; a `try/except` block
  becomes a `match` on the inner computation.
-/

/-- Model of a JSON / loosely-typed Python value.  Numbers are modelled as
integers; an absent dictionary key is represented by `jnull` (Python's
`dict.get` returns `None` for a missing key). -/
inductive JValue where
  | jnull : JValue
  | jbool : Bool → JValue
  | jint : Int → JValue
  | jstr : String → JValue
  | jdict : List (String × JValue) → JValue

/-- Python truthiness (`bool(x)`): `None`, `False`, `0`, `""` and `{}` are
falsy, everything else is truthy. -/
def truthy : JValue → Bool
  | .jnull => false
  | .jbool b => b
  | .jint n => n != 0
  | .jstr s => s != ""
  | .jdict l => !l.isEmpty

/-- Model of `d.get(k, default)` on a Python dict (first binding wins). -/
def dgetD (d : List (String × JValue)) (k : String) (v : JValue) : JValue :=
  match d.find? (fun p => p.1 == k) with
  | some p => p.2
  | none => v

/-- Model of `d.get(k)`: a missing key yields `None`. -/
def dget (d : List (String × JValue)) (k : String) : JValue :=
  dgetD d k .jnull

/-- Decimal digit value of a character, `none` for a non-digit. -/
def digitVal (c : Char) : Option Nat :=
  if c.isDigit then some (c.toNat - 48) else none

/-- Two-digit decimal number. -/
def twoDigits (a b : Char) : Option Nat := do
  pure ((← digitVal a) * 10 + (← digitVal b))

/-- Four-digit decimal number. -/
def fourDigits (a b c d : Char) : Option Nat := do
  pure ((← twoDigits a b) * 100 + (← twoDigits c d))

/-- Value of a list of decimal digits (most significant first). -/
def digitsVal : List Char → Option Nat
  | [] => some 0
  | c :: rest => do pure ((← digitVal c) * 10 ^ rest.length + (← digitsVal rest))

/-- Microseconds denoted by the fractional part `.d₁…dₖ` (1 ≤ k ≤ 6) of an
ISO-8601 second field. -/
def fracMicro (cs : List Char) : Option Nat :=
  if 1 ≤ cs.length ∧ cs.length ≤ 6 then
    (digitsVal cs).map (· * 10 ^ (6 - cs.length))
  else none

/-- Proleptic-Gregorian leap-year test. -/
def isLeap (y : Int) : Bool := (y % 4 == 0 && y % 100 != 0) || (y % 400 == 0)

/-- Number of days in a month (month given 1-based). -/
def daysInMonth (y : Int) (m : Nat) : Nat :=
  match m with
  | 1 => 31 | 2 => if isLeap y then 29 else 28 | 3 => 31 | 4 => 30
  | 5 => 31 | 6 => 30 | 7 => 31 | 8 => 31 | 9 => 30 | 10 => 31
  | 11 => 30 | 12 => 31 | _ => 0

/-- Days since 1970-01-01 of a civil date (standard civil-calendar
conversion, as used by every Unix time implementation). -/
def daysFromCivil (y : Int) (m d : Nat) : Int :=
  let y' : Int := if m ≤ 2 then y - 1 else y
  let era : Int := Int.ediv (if 0 ≤ y' then y' else y' - 399) 400
  let yoe : Int := y' - era * 400
  let mp : Int := Int.emod ((m : Int) + 9) 12
  let doy : Int := Int.ediv (153 * mp + 2) 5 + (d : Int) - 1
  let doe : Int := yoe * 365 + Int.ediv yoe 4 - Int.ediv yoe 100 + doy
  era * 146097 + doe - 719468

/-- Civil date of a day count since 1970-01-01 (inverse of
`daysFromCivil`). -/
def civilFromDays (z0 : Int) : Int × Int × Int :=
  let z := z0 + 719468
  let era : Int := Int.ediv z 146097
  let doe : Int := z - era * 146097
  let yoe : Int := Int.ediv (doe - Int.ediv doe 1460 + Int.ediv doe 36524 - Int.ediv doe 146096) 365
  let y : Int := yoe + era * 400
  let doy : Int := doe - (365 * yoe + Int.ediv yoe 4 - Int.ediv yoe 100)
  let mp : Int := Int.ediv (5 * doy + 2) 153
  let d : Int := doy - Int.ediv (153 * mp + 2) 5 + 1
  let m : Int := mp + (if mp < 10 then 3 else -9)
  (if m ≤ 2 then y + 1 else y, m, d)

/-- Time-of-day part `HH:MM[:SS[.ffffff]]` of an ISO-8601 string, in
microseconds since midnight. -/
def timeMicro : List Char → Option Nat
  | [h1, h2, ':', m1, m2] => do
    let h ← twoDigits h1 h2
    let m ← twoDigits m1 m2
    if h ≤ 23 ∧ m ≤ 59 then pure (((h * 60 + m) * 60) * 1000000) else none
  | h1 :: h2 :: ':' :: m1 :: m2 :: ':' :: s1 :: s2 :: rest => do
    let h ← twoDigits h1 h2
    let m ← twoDigits m1 m2
    let s ← twoDigits s1 s2
    let frac ← (match rest with
      | [] => some 0
      | '.' :: cs => fracMicro cs
      | _ => none)
    if h ≤ 23 ∧ m ≤ 59 ∧ s ≤ 59 then
      pure (((h * 60 + m) * 60 + s) * 1000000 + frac)
    else none
  | _ => none

/-- Model of the Python standard library `datetime.fromisoformat` on
timezone-naive inputs `YYYY-MM-DD[THH:MM[:SS[.ffffff]]]` (the format the
repository's producer `bridge._iso` emits).  Returns microseconds since the
epoch, or `none` where `fromisoformat` raises `ValueError`.  Offset-carrying
inputs are outside the modelled subset. -/
def parseIso (s : String) : Option Int :=
  match s.data with
  | y1 :: y2 :: y3 :: y4 :: '-' :: m1 :: m2 :: '-' :: d1 :: d2 :: rest => do
    let y ← fourDigits y1 y2 y3 y4
    let mo ← twoDigits m1 m2
    let da ← twoDigits d1 d2
    if 1 ≤ mo ∧ mo ≤ 12 ∧ 1 ≤ da ∧ da ≤ daysInMonth (y : Int) mo then
      let tod ← (match rest with
        | [] => some 0
        | 'T' :: ts => timeMicro ts
        | _ => none)
      pure (daysFromCivil (y : Int) mo da * 86400000000 + (tod : Int))
    else none
  | _ => none

/-- Model of Python `int(x)`: identity on integers, 0/1 on booleans, decimal
parse (optional sign) on strings, `TypeError`/`ValueError` (here
`Except.error`) otherwise.  Non-integral numeric strings are outside the
modelled subset. -/
def pyInt (v : JValue) : Except Unit Int :=
  match v with
  | .jint n => .ok n
  | .jbool b => .ok (if b then 1 else 0)
  | .jstr s =>
    match s.data with
    | '-' :: (c :: cs) =>
      match digitsVal (c :: cs) with
      | some n => .ok (-(n : Int))
      | none => .error ()
    | '+' :: (c :: cs) =>
      match digitsVal (c :: cs) with
      | some n => .ok (n : Int)
      | none => .error ()
    | c :: cs =>
      match digitsVal (c :: cs) with
      | some n => .ok (n : Int)
      | none => .error ()
    | [] => .error ()
  | _ => .error ()

/-- Model of Python `float(x)` restricted to the integral values this
development tracks (numbers are modelled as integers throughout). -/
def pyFloat (v : JValue) : Except Unit Int := pyInt v

/-- Model of Python `str(x)`.  `str` never raises; the exact repr of a dict
is irrelevant to every claim and is abstracted to a fixed token. -/
def pyStr (v : JValue) : String :=
  match v with
  | .jnull => "None"
  | .jbool b => if b then "True" else "False"
  | .jint n => toString n
  | .jstr s => s
  | .jdict _ => "dict"

/-- The event dataclass `InfobarEvent` of `infobar_sv.py`.  The Python field
`end` is named `end_` (`end` is a Lean keyword); `start`, `end_`,
`next_start` are UTC microseconds since the epoch, `ts` is seconds. -/
structure InfobarEvent where
  channel_number : Int
  channel_name : String
  title : String
  start : Int
  end_ : Int
  ts : Int
  next_title : Option String
  next_start : Option Int
deriving DecidableEq, Repr

/-- The inner helper `parse_iso` of `InfobarEvent.from_json`: falsy input
(`None`, empty string) yields `None`; a non-string truthy value raises
`TypeError`; a malformed string raises `ValueError`; a naive ISO string is
interpreted as UTC. -/
def parse_iso_j (v : JValue) : Except Unit (Option Int) :=
  if truthy v then
    match v with
    | .jstr s =>
      match parseIso s with
      | some t => .ok (some t)
      | none => .error ()
    | _ => .error ()
  else .ok none

namespace InfobarEvent

/-- Model of `InfobarEvent.from_json`.  `now` is the instant (microseconds)
at which the surrounding calls `datetime.now(timezone.utc)` / `time.time()`
are made; exceptions escaping the Python function are `Except.error`. -/
def from_json (now : Int) (d : List (String × JValue)) : Except Unit InfobarEvent := do
  let channel_number ← pyInt (dgetD d "channel_number" (.jint 0))
  let channel_name := pyStr (dgetD d "channel_name" (.jstr ""))
  let title := pyStr (dgetD d "title" (.jstr ""))
  let start := (← parse_iso_j (dget d "start")).getD now
  let end_ := (← parse_iso_j (dget d "end")).getD now
  let ts ← pyFloat (dgetD d "ts" (.jint (Int.tdiv now 1000000)))
  let next_title := if truthy (dget d "next_title") then some (pyStr (dget d "next_title")) else none
  let next_start ← if truthy (dget d "next_start") then parse_iso_j (dget d "next_start") else pure none
  pure { channel_number, channel_name, title, start, end_, ts, next_title, next_start }

end InfobarEvent

/-- Overlay timing constant `FADE_IN` (seconds). -/
def FADE_IN : ℚ := 18 / 100

/-- Overlay timing constant `VIS_SECONDS` — the hold duration (seconds). -/
def VIS_SECONDS : ℚ := 5

/-- Overlay timing constant `FADE_OUT` (seconds). -/
def FADE_OUT : ℚ := 28 / 100

/-- Truncation of a microsecond instant to whole seconds, as computed by
`int(dt.timestamp())` (Python `int` on a float truncates toward zero). -/
def tsec (micro : Int) : Int := Int.tdiv micro 1000000

/-- The render-cache key: the Python 6-tuple built in
`InfoBarRenderer.ensure_texture`, modelled as a structure whose fields are
the tuple components in order. -/
structure CacheKey where
  k1 : Int
  k2 : String
  k3 : String
  k4 : Int
  k5 : Option String
  k6 : Int
deriving DecidableEq, Repr

/-- The last component of the cache key:
`int(ev.next_start.timestamp() if ev.next_start else 0)`. -/
def nsKey (ev : InfobarEvent) : Int :=
  match ev.next_start with
  | some t => tsec t
  | none => 0

/-- The cache key of `InfoBarRenderer.ensure_texture` (line 229):
`(channel_number, channel_name, title, int(end.timestamp()), next_title,
int(next_start.timestamp() if next_start else 0))`.  A `datetime` is always
truthy, so the `if ev.end else 0` guard reduces to the timestamp. -/
def cacheKey (ev : InfobarEvent) : CacheKey :=
  ⟨ev.channel_number, ev.channel_name, ev.title, tsec ev.end_, ev.next_title, nsKey ev⟩

/-- Modelled from the spec: the CacheKey described in §3 — "derived tuple
over all fields that affect the rendered image (channel number/name, title,
end-time rounded to seconds, next_title, next_start rounded to seconds)",
with an absent `next_start` contributing the constant 0. -/
def cacheKeySpec (ev : InfobarEvent) : CacheKey :=
  ⟨ev.channel_number, ev.channel_name, ev.title, tsec ev.end_, ev.next_title,
    match ev.next_start with
    | some t => tsec t
    | none => 0⟩

/-- Zero-padded two-digit decimal rendering, as in the format spec `{h:02d}`
for the nonnegative values produced by `fmt_remaining`. -/
def pad2 (n : Int) : String := if n < 10 then "0" ++ toString n else toString n

/-- Model of `InfoBarRenderer.fmt_remaining` (lines 151-158): whole-second
difference truncated toward zero, clamped at 0, then split into hours and
minutes and rendered `"Remaining time HH:MM Hours"`. -/
def fmt_remaining (now_utc end_utc : Int) : String :=
  let secs : Int := Int.tdiv (end_utc - now_utc) 1000000
  let secs : Int := if secs < 0 then 0 else secs
  let h : Int := secs / 3600
  let m : Int := (secs % 3600) / 60
  "Remaining time " ++ pad2 h ++ ":" ++ pad2 m ++ " Hours"

/-- The mutable state of `OverlayApp` together with the render-cache state of
its `InfoBarRenderer` (`current_img_key`); `uploads` counts the texture
uploads performed by `ensure_texture`, so "no surface regeneration" is
"`uploads` unchanged". -/
structure AppState where
  event : Option InfobarEvent
  fade_state : String
  fade_t0 : ℚ
  visible_until : ℚ
  file_mtime : ℚ
  current_img_key : Option CacheKey
  uploads : Nat
deriving DecidableEq, Repr

/-- The state set up by `OverlayApp.__init__` / `InfoBarRenderer.__init__`:
no event, `fade_state = "idle"`, zeroed timers, empty cache. -/
def initApp : AppState :=
  { event := none, fade_state := "idle", fade_t0 := 0, visible_until := 0,
    file_mtime := 0, current_img_key := none, uploads := 0 }

/-- Model of `InfoBarRenderer.ensure_texture` (lines 228-233): regenerate and
upload only when the key differs from the stored one. -/
def ensure_texture (st : AppState) (ev : InfobarEvent) : AppState :=
  if some (cacheKey ev) ≠ st.current_img_key then
    { st with uploads := st.uploads + 1, current_img_key := some (cacheKey ev) }
  else st

/-- Model of `OverlayApp._on_event` (lines 325-330): store the event, make
the texture current, restart the fade timer (`now` is `time.time()`). -/
def on_event (st : AppState) (ev : InfobarEvent) (now : ℚ) : AppState :=
  let st := ensure_texture { st with event := some ev } ev
  { st with
    fade_state := "in"
    fade_t0 := now
    visible_until := now + FADE_IN + VIS_SECONDS + FADE_OUT }

/-- The opacity computed by the body of `OverlayApp.run` (lines 342-352) as a
function of the elapsed time `t = now - fade_t0`. -/
def opacity (t : ℚ) : ℚ :=
  if t < FADE_IN then t / FADE_IN
  else if t < FADE_IN + VIS_SECONDS then 1
  else max 0 (1 - (t - (FADE_IN + VIS_SECONDS)) / FADE_OUT)

/-- One iteration of the drawing part of `OverlayApp.run` (lines 339-354):
returns the updated state and `some α` when `renderer.draw(α)` was called,
`none` when the draw was skipped entirely. -/
def frameAlpha (st : AppState) (now : ℚ) : AppState × Option ℚ :=
  if st.event.isSome ∧ now < st.visible_until then
    let t := now - st.fade_t0
    if t < FADE_IN then ({ st with fade_state := "in" }, some (t / FADE_IN))
    else if t < FADE_IN + VIS_SECONDS then ({ st with fade_state := "hold" }, some 1)
    else ({ st with fade_state := "out" },
      some (max 0 (1 - (t - (FADE_IN + VIS_SECONDS)) / FADE_OUT)))
  else (st, none)

/-- The observable file-transport state at one poll: `none` models a missing
file (`os.stat` raises `FileNotFoundError`); otherwise the modification time
together with the result of `json.load` (`Except.error` models malformed
JSON). -/
abbrev FileState := Option (ℚ × Except Unit (List (String × JValue)))

/-- Model of `OverlayApp._poll_file` (lines 312-323).  The mtime guard is
strict; the mtime is recorded before the read, so a malformed file advances
`file_mtime` but leaves the event slot untouched; every exception path falls
into a bare `pass`. -/
def poll_file (st : AppState) (fs : FileState) (now : ℚ) (nowMicro : Int) : AppState :=
  match fs with
  | none => st
  | some (mtime, content) =>
    if st.file_mtime < mtime then
      let st := { st with file_mtime := mtime }
      match content with
      | .error _ => st
      | .ok d =>
        match InfobarEvent.from_json nowMicro d with
        | .error _ => st
        | .ok ev => on_event st ev now
    else st

/-- A numeric JSON value (Python `int`/`bool`); `int()` and `float()` accept
these without raising. -/
def numOk (v : JValue) : Bool :=
  match v with
  | .jint _ => true
  | .jbool _ => true
  | _ => false

/-- A value the inner `parse_iso` of `from_json` accepts without raising:
falsy, or a string that `fromisoformat` parses. -/
def isoOk (v : JValue) : Bool :=
  !truthy v ||
    (match v with
     | .jstr s => (parseIso s).isSome
     | _ => false)

/-- A payload map whose present fields are well-typed for `from_json`:
numeric `channel_number`/`ts` and parseable (or falsy/absent) `start`,
`end`, `next_start`. -/
def wellFormed (d : List (String × JValue)) : Bool :=
  numOk (dgetD d "channel_number" (.jint 0)) &&
  isoOk (dget d "start") &&
  isoOk (dget d "end") &&
  numOk (dgetD d "ts" (.jint 0)) &&
  isoOk (dget d "next_start")

/-- Zero-padded four-digit decimal rendering (for the year field of
`datetime.isoformat`), on the nonnegative values this development meets. -/
def pad4 (n : Int) : String :=
  if n < 10 then "000" ++ toString n
  else if n < 100 then "00" ++ toString n
  else if n < 1000 then "0" ++ toString n
  else toString n

/-- Model of `datetime.isoformat()` after `replace(microsecond=0)`: the
instant floored to a whole second, rendered `YYYY-MM-DDTHH:MM:SS`. -/
def isoFormat (micro : Int) : String :=
  let totalSec := Int.ediv micro 1000000
  let days := Int.ediv totalSec 86400
  let tod := Int.emod totalSec 86400
  let ymd := civilFromDays days
  let h := Int.ediv tod 3600
  let mi := Int.ediv (Int.emod tod 3600) 60
  let s := Int.emod tod 60
  pad4 ymd.1 ++ "-" ++ pad2 ymd.2.1 ++ "-" ++ pad2 ymd.2.2 ++ "T" ++
    pad2 h ++ ":" ++ pad2 mi ++ ":" ++ pad2 s

/-- Model of `bridge._iso` (lines 18-21): `None` becomes `utcnow()` (the
`now` parameter), and the microsecond field is dropped before formatting. -/
def _iso (now : Int) (dt : Option Int) : String := isoFormat (dt.getD now)

/-- The world of externally observable effects of `bridge.py`: whether the
runtime directory was created, the content of the event file, and the list
of payloads actually delivered as UDP datagrams. -/
structure World where
  dirs_created : Bool
  file : Option (List (String × JValue))
  sent : List (List (String × JValue))

/-- Model of `bridge.send_infobar_event` (lines 24-55).  `now_ts` is the
`time.time()` value, `now` the `datetime.utcnow()` microsecond instant;
`udp_fails` tells whether the `sendto` call raises `OSError` (which the
source swallows).  Arguments already carry the types the `int`/`str`
coercions in the source produce, except `next_title`, which the source
truthiness-tests and then `str()`s. -/
def send_infobar_event (now_ts now : Int) (channel_number : Int)
    (channel_name title : String) (start end_ : Option Int)
    (next_title : JValue) (next_start : Option Int)
    (udp_fails : Bool) (w : World) : World :=
  let payload := [("ts", JValue.jint now_ts),
    ("channel_number", JValue.jint channel_number),
    ("channel_name", JValue.jstr channel_name),
    ("title", JValue.jstr title),
    ("start", JValue.jstr (_iso now start)),
    ("end", JValue.jstr (_iso now end_))]
  let payload := payload ++
    (if truthy next_title then [("next_title", JValue.jstr (pyStr next_title))] else [])
  let payload := payload ++
    (match next_start with
     | some t => [("next_start", JValue.jstr (_iso now t))]
     | none => [])
  let w := { w with dirs_created := true, file := some payload }
  if udp_fails then w else { w with sent := w.sent ++ [payload] }

/-- Model of `x.get(k)` on an arbitrary Python value: raises
`AttributeError` unless `x` is a dict. -/
def pyGet (v : JValue) (k : String) : Except Unit JValue :=
  match v with
  | .jdict l => .ok (dget l k)
  | _ => .error ()

/-- Python `a or b` on already-evaluated operands. -/
def pyOr (a b : JValue) : JValue := if truthy a then a else b

/-- The `to_dt` helper inside `monkey_infobar_hook._extract` (lines 40-50):
falsy values give `None`; numbers go through `utcfromtimestamp` (`bool` is a
Python `int`, so `True` maps to second 1); strings through `fromisoformat`
with failures swallowed to `None`; anything else gives `None`. -/
def to_dt (x : JValue) : Option Int :=
  if truthy x then
    match x with
    | .jint n => some (n * 1000000)
    | .jbool _ => some 1000000
    | .jstr s => parseIso s
    | _ => none
  else none

/-- Model of `monkey_infobar_hook._extract` (lines 24-58), with Python's
lazy `or` chains made explicit; any `.get` on a non-dict raises
(`Except.error`), to be swallowed by the caller. -/
def _extract (p : List (String × JValue)) :
    Except Unit (Int × String × String × Option Int × Option Int × JValue × Option Int) := do
  let ch_num ←
    if truthy (dget p "channel_number") then pure (dget p "channel_number")
    else if truthy (dget p "channelNum") then pure (dget p "channelNum")
    else do
      let n ← pyGet (pyOr (dget p "channel") (.jdict [])) "number"
      pure (pyOr n (.jint 0))
  let ch_name ←
    if truthy (dget p "channel_name") then pure (dget p "channel_name")
    else do
      let n ← pyGet (pyOr (dget p "channel") (.jdict [])) "name"
      pure (pyOr n (.jstr ""))
  let now_v := pyOr (dget p "now") (pyOr (dget p "current") (pyOr (dget p "programme") (.jdict [])))
  let nxt_v := pyOr (dget p "next") (pyOr (dget p "up_next") (.jdict []))
  let t ← pyGet now_v "title"
  let now_title ←
    if truthy t then pure t
    else do
      let n ← pyGet now_v "name"
      pure (pyOr n (.jstr ""))
  let s1 ← pyGet now_v "start"
  let s2 ← if truthy s1 then pure s1 else pyGet now_v "start_time"
  let now_start := to_dt s2
  let e1 ← pyGet now_v "end"
  let e2 ← if truthy e1 then pure e1 else pyGet now_v "end_time"
  let now_end := to_dt e2
  let nt1 ← pyGet nxt_v "title"
  let next_title ← if truthy nt1 then pure nt1 else pyGet nxt_v "name"
  let ns1 ← pyGet nxt_v "start"
  let ns2 ← if truthy ns1 then pure ns1 else pyGet nxt_v "start_time"
  let next_start := to_dt ns2
  let cn ← pyInt ch_num
  pure (cn, pyStr ch_name, pyStr now_title, now_start, now_end, next_title, next_start)

/-- Whether a value is a Python dict (the `isinstance(a, dict)` test of the
wrapper). -/
def isDict (v : JValue) : Bool :=
  match v with
  | .jdict _ => true
  | _ => false

/-- The payload search of the wrapped `update_status_socket` (lines 63-74):
the first dict among the positional arguments, else the first dict among the
keyword-argument values (the loop breaks at the first dict even if it is
empty). -/
def findPayload (args : List JValue) (kwargs : List (String × JValue)) : Option JValue :=
  match args.find? isDict with
  | some p => some p
  | none => (kwargs.map Prod.snd).find? isDict

/-- Model of the wrapper `update_status_socket` of `monkey_infobar_hook.py`
(lines 60-82).  `rv` is the value returned by the original function, which
is called first and whose effects are outside this model; the notification
is attempted only for a truthy dict payload whose extracted channel name and
current title are nonempty, and every failure inside the `try` is
swallowed. -/
def update_status_socket {α : Type} (rv : α) (args : List JValue)
    (kwargs : List (String × JValue)) (now_ts now : Int)
    (udp_fails : Bool) (w : World) : α × World :=
  match findPayload args kwargs with
  | none => (rv, w)
  | some payload =>
    if truthy payload then
      match payload with
      | .jdict p =>
        match _extract p with
        | .error _ => (rv, w)
        | .ok (ch_num, ch_name, now_title, now_start, now_end, next_title, next_start) =>
          if ch_name ≠ "" ∧ now_title ≠ "" then
            (rv, send_infobar_event now_ts now ch_num ch_name now_title
              now_start now_end next_title next_start udp_fails w)
          else (rv, w)
      | _ => (rv, w)
    else (rv, w)

/-- Lexicographic order on character lists by code point — the comparison
Python's `sorted` applies to strings. -/
def chLe : List Char → List Char → Bool
  | [], _ => true
  | _ :: _, [] => false
  | c :: cs, d :: ds => if c = d then chLe cs ds else decide (c < d)

/-- String comparison by code points, as Python's `sorted` uses. -/
def strLe (a b : String) : Bool := chLe a.data b.data

/-- Model of `series._sorted_paths` (lines 7-15): normalise to a list and
sort alphanumerically (`str(p)` on the already-string paths is the
identity). -/
def _sorted_paths (paths : List String) : List String :=
  List.insertionSort (fun a b => strLe a b = true) paths

/-- The dataclass `SeriesIndex` of `series.py` (fields and defaults as in
the source). -/
structure SeriesIndex where
  series_name : String
  episodes : List String := []
  _index : Nat := 0
deriving DecidableEq, Repr

namespace SeriesIndex

/-- Model of `SeriesIndex.make_key`. -/
def make_key (series_name sequence_name : String) : String :=
  series_name ++ "-" ++ sequence_name

/-- Model of `SeriesIndex.populate` (lines 44-52). -/
def populate (s : SeriesIndex) (file_list : List String) : SeriesIndex :=
  { s with
    episodes := _sorted_paths file_list
    _index := 0 }

/-- Model of `SeriesIndex.get_series_length`. -/
def get_series_length (s : SeriesIndex) : Nat := s.episodes.length

/-- Model of `SeriesIndex.get_next` (lines 61-69); an out-of-range index
would raise `IndexError` in Python, modelled by `Except.error`. -/
def get_next (s : SeriesIndex) : Except Unit (Option String × SeriesIndex) :=
  if s.episodes.isEmpty then .ok (none, s)
  else
    match s.episodes[s._index]? with
    | some episode =>
      .ok (some episode, { s with _index := (s._index + 1) % s.episodes.length })
    | none => .error ()

/-- State after `k` successive `get_next` calls. -/
def runN (s : SeriesIndex) : Nat → Except Unit SeriesIndex
  | 0 => .ok s
  | k + 1 =>
    match runN s k with
    | .error e => .error e
    | .ok s' =>
      match get_next s' with
      | .error e => .error e
      | .ok r => .ok r.2

/-- Value returned by the `(k+1)`-th `get_next` call (0-indexed `k`). -/
def outN (s : SeriesIndex) (k : Nat) : Except Unit (Option String) :=
  match runN s k with
  | .error e => .error e
  | .ok s' =>
    match get_next s' with
    | .error e => .error e
    | .ok r => .ok r.1

end SeriesIndex

/-- A concrete event used by witnesses: channel 3 "TV3", "Movie", ending
7080 s after the epoch. -/
def evA : InfobarEvent :=
  ⟨3, "TV3", "Movie", 0, 7080000000, 0, none, none⟩

/-- Like `evA` but with a different `start` field only. -/
def evB : InfobarEvent :=
  ⟨3, "TV3", "Movie", 600000000, 7080000000, 0, none, none⟩

/-- A concrete full payload used by witnesses. -/
def payloadC : List (String × JValue) :=
  [("channel_number", JValue.jint 3), ("channel_name", JValue.jstr "TV3"),
   ("title", JValue.jstr "Movie"), ("ts", JValue.jint 1734111111),
   ("start", JValue.jstr "2025-08-16T20:00:00"),
   ("end", JValue.jstr "2025-08-16T22:18:00")]

/-- The event `payloadC` parses to. -/
def evC : InfobarEvent :=
  ⟨3, "TV3", "Movie", 1755374400000000, 1755382680000000, 1734111111, none, none⟩

/-- Like `evA` but with `end` half a second later (same whole second). -/
def evD : InfobarEvent :=
  ⟨3, "TV3", "Movie", 0, 7080500000, 0, none, none⟩

/-- A pristine effect world used by witnesses. -/
def w0 : World := ⟨false, none, []⟩

theorem numOk_pyInt (v : JValue) (h : numOk v = true) : ∃ n, pyInt v = .ok n := by
  cases v with
  | jint n => exact ⟨n, rfl⟩
  | jbool b => exact ⟨if b then 1 else 0, rfl⟩
  | jnull => simp [numOk] at h
  | jstr s => simp [numOk] at h
  | jdict l => simp [numOk] at h

theorem numOk_dgetD_pyInt (d : List (String × JValue)) (k : String) (m m' : Int)
    (h : numOk (dgetD d k (.jint m)) = true) : ∃ n, pyInt (dgetD d k (.jint m')) = .ok n := by
  unfold dgetD at h ⊢
  cases hf : d.find? (fun p => p.1 == k) with
  | none => exact ⟨m', rfl⟩
  | some p =>
    rw [hf] at h
    exact numOk_pyInt _ h

theorem isoOk_parse_iso_j (v : JValue) (h : isoOk v = true) :
    ∃ o, parse_iso_j v = .ok o := by
  unfold isoOk at h
  unfold parse_iso_j
  cases ht : truthy v with
  | false => exact ⟨none, by simp [ht]⟩
  | true =>
    rw [ht] at h
    simp only [Bool.not_true, Bool.false_or] at h
    cases v with
    | jstr s =>
      change (parseIso s).isSome = true at h
      simp only [ht, if_true]
      cases hp : parseIso s with
      | none => rw [hp] at h; simp at h
      | some t => exact ⟨some t, rfl⟩
    | jnull => simp at h
    | jbool b => simp at h
    | jint n => simp at h
    | jdict l => simp at h

/-- C1 counterexample: `InfobarEvent.from_json` is not total on garbage
inputs — a wrong-typed `channel_number` (`int("x")`) and a malformed
ISO-8601 `start` string both raise (model: `Except.error`), contradicting
"parse … is total and never raises" for those inputs. -/
theorem C1_counterexample :
    InfobarEvent.from_json 0 [("channel_number", JValue.jstr "x")] = .error () ∧
    InfobarEvent.from_json 0 [("start", JValue.jstr "garbage")] = .error () :=
  ⟨rfl, rfl⟩

/-- C1 (amended): `from_json` never raises and substitutes the documented
safe defaults (`0`, empty string, "now") for missing keys — the empty object
yields exactly the default event — and more generally it is total on every
map whose present fields are well-typed (numeric `channel_number`/`ts`,
parseable-or-falsy time strings); wrong-typed or malformed present fields
raise instead, and the callers' `try/except` provides the totality the spec
ascribes to parse itself. -/
theorem C1_parse_defaults :
    (∀ now : Int, InfobarEvent.from_json now [] =
      .ok ⟨0, "", "", now, now, Int.tdiv now 1000000, none, none⟩) ∧
    (∀ (now : Int) (d : List (String × JValue)), wellFormed d = true →
      ∃ ev, InfobarEvent.from_json now d = .ok ev) := by
  constructor
  · intro now
    rfl
  · intro now d h
    simp only [wellFormed, Bool.and_eq_true] at h
    obtain ⟨⟨⟨⟨hcn, hs⟩, he⟩, hts⟩, hns⟩ := h
    obtain ⟨n1, h1⟩ := numOk_pyInt _ hcn
    obtain ⟨o1, h2⟩ := isoOk_parse_iso_j _ hs
    obtain ⟨o2, h3⟩ := isoOk_parse_iso_j _ he
    obtain ⟨n2, h4⟩ := numOk_dgetD_pyInt d "ts" 0 (Int.tdiv now 1000000) hts
    unfold InfobarEvent.from_json
    rw [show pyFloat (dgetD d "ts" (.jint (Int.tdiv now 1000000))) =
      pyInt (dgetD d "ts" (.jint (Int.tdiv now 1000000))) from rfl]
    rw [h1, h2, h3, h4]
    cases htn : truthy (dget d "next_start") with
    | false =>
      simp only [htn, Bool.false_eq_true, if_false]
      exact ⟨_, rfl⟩
    | true =>
      obtain ⟨o3, h5⟩ := isoOk_parse_iso_j _ hns
      simp only [htn, if_true, h5]
      exact ⟨_, rfl⟩

/-- Witness for `C1_parse_defaults`: a concrete well-typed payload parses. -/
theorem C1_parse_defaults_witness :
    ∃ ev, InfobarEvent.from_json 5
      [("channel_number", JValue.jint 3), ("title", JValue.jstr "Movie"),
       ("end", JValue.jstr "2025-08-16T22:18:00")] = .ok ev :=
  C1_parse_defaults.2 5 _ (by rfl)

theorem FADE_IN_pos : (0 : ℚ) < FADE_IN := by norm_num [FADE_IN]

theorem FADE_OUT_pos : (0 : ℚ) < FADE_OUT := by norm_num [FADE_OUT]

theorem VIS_SECONDS_pos : (0 : ℚ) < VIS_SECONDS := by norm_num [VIS_SECONDS]

theorem opacity_fadein (t : ℚ) (h : t < FADE_IN) : opacity t = t / FADE_IN := by
  simp only [opacity, if_pos h]

theorem opacity_hold (t : ℚ) (h1 : FADE_IN ≤ t) (h2 : t < FADE_IN + VIS_SECONDS) :
    opacity t = 1 := by
  simp only [opacity, if_neg (not_lt.2 h1), if_pos h2]

theorem opacity_fadeout (t : ℚ) (h : FADE_IN + VIS_SECONDS ≤ t) :
    opacity t = max 0 (1 - (t - (FADE_IN + VIS_SECONDS)) / FADE_OUT) := by
  have h1 : ¬ t < FADE_IN := by
    have := VIS_SECONDS_pos
    push_neg
    linarith
  simp only [opacity, if_neg h1, if_neg (not_lt.2 h)]

theorem opacity_bounds (t : ℚ) (h0 : 0 ≤ t) : 0 ≤ opacity t ∧ opacity t ≤ 1 := by
  unfold opacity
  split_ifs with h1 h2
  · exact ⟨div_nonneg h0 (le_of_lt FADE_IN_pos),
      le_of_lt ((div_lt_one FADE_IN_pos).2 h1)⟩
  · exact ⟨by norm_num, le_refl 1⟩
  · refine ⟨le_max_left 0 _, max_le (by norm_num) ?_⟩
    have hnum : 0 ≤ (t - (FADE_IN + VIS_SECONDS)) / FADE_OUT := by
      apply div_nonneg _ (le_of_lt FADE_OUT_pos)
      push_neg at h2
      linarith
    linarith

theorem opacity_mono_up (t1 t2 : ℚ) (h0 : 0 ≤ t1) (h12 : t1 ≤ t2) (h2f : t2 ≤ FADE_IN) :
    opacity t1 ≤ opacity t2 := by
  by_cases h2 : t2 < FADE_IN
  · have h1 : t1 < FADE_IN := lt_of_le_of_lt h12 h2
    rw [opacity_fadein t1 h1, opacity_fadein t2 h2]
    exact (div_le_div_iff_of_pos_right FADE_IN_pos).2 h12
  · have h2' : opacity t2 = 1 := by
      apply opacity_hold t2 (not_lt.1 h2)
      have := VIS_SECONDS_pos
      linarith
    rw [h2']
    exact (opacity_bounds t1 h0).2

theorem opacity_mono_down (t1 t2 : ℚ) (h1 : FADE_IN + VIS_SECONDS ≤ t1) (h12 : t1 ≤ t2) :
    opacity t2 ≤ opacity t1 := by
  rw [opacity_fadeout t1 h1, opacity_fadeout t2 (le_trans h1 h12)]
  apply max_le_max (le_refl 0)
  have hstep : (t1 - (FADE_IN + VIS_SECONDS)) / FADE_OUT ≤
      (t2 - (FADE_IN + VIS_SECONDS)) / FADE_OUT :=
    (div_le_div_iff_of_pos_right FADE_OUT_pos).2 (by linarith)
  linarith

/-- C2: for an accepted event and elapsed time `t = now - fade_t0` in
`[0, FADE_IN + VIS_SECONDS + FADE_OUT)`, the frame of `OverlayApp.run` draws
with exactly `opacity t`; `opacity` is the claimed piecewise-linear function
(`t/FADE_IN` before `FADE_IN`, exactly 1 during the hold,
`1 - (t - FADE_IN - HOLD)/FADE_OUT` floored at 0 afterwards), always lies in
`[0,1]` for `t ≥ 0`, is non-decreasing up to `FADE_IN` and non-increasing
after `FADE_IN + VIS_SECONDS`. -/
theorem C2_opacity_piecewise :
    (∀ (st : AppState) (now : ℚ), st.event.isSome = true →
      st.visible_until = st.fade_t0 + (FADE_IN + VIS_SECONDS + FADE_OUT) →
      0 ≤ now - st.fade_t0 → now - st.fade_t0 < FADE_IN + VIS_SECONDS + FADE_OUT →
      (frameAlpha st now).2 = some (opacity (now - st.fade_t0))) ∧
    (∀ t : ℚ, t < FADE_IN → opacity t = t / FADE_IN) ∧
    (∀ t : ℚ, FADE_IN ≤ t → t < FADE_IN + VIS_SECONDS → opacity t = 1) ∧
    (∀ t : ℚ, FADE_IN + VIS_SECONDS ≤ t →
      opacity t = max 0 (1 - (t - (FADE_IN + VIS_SECONDS)) / FADE_OUT)) ∧
    (∀ t : ℚ, 0 ≤ t → 0 ≤ opacity t ∧ opacity t ≤ 1) ∧
    (∀ t1 t2 : ℚ, 0 ≤ t1 → t1 ≤ t2 → t2 ≤ FADE_IN → opacity t1 ≤ opacity t2) ∧
    (∀ t1 t2 : ℚ, FADE_IN + VIS_SECONDS ≤ t1 → t1 ≤ t2 → opacity t2 ≤ opacity t1) := by
  refine ⟨?_, opacity_fadein, opacity_hold, opacity_fadeout, opacity_bounds,
    opacity_mono_up, opacity_mono_down⟩
  intro st now he hv h0 hlt
  have hn : now < st.visible_until := by rw [hv]; linarith
  simp only [frameAlpha, opacity]
  rw [if_pos ⟨he, hn⟩]
  split_ifs <;> rfl

theorem on_event_initApp_evA :
    on_event initApp evA 0 =
      { event := some evA, fade_state := "in", fade_t0 := 0,
        visible_until := 0 + FADE_IN + VIS_SECONDS + FADE_OUT, file_mtime := 0,
        current_img_key := some (cacheKey evA), uploads := 1 } := by
  simp [on_event, ensure_texture, initApp]

/-- Witness for `C2_opacity_piecewise` at concrete inputs: the state right
after accepting `evA` at time 0, sampled at `now = 9/100` (mid fade-in). -/
theorem C2_opacity_piecewise_witness :
    (frameAlpha (on_event initApp evA 0) (9/100)).2 =
      some (opacity ((9 : ℚ)/100 - (on_event initApp evA 0).fade_t0)) ∧
    opacity (9/100) = (9/100) / FADE_IN ∧
    opacity 3 = 1 ∧
    opacity (532/100) = max 0 (1 - ((532 : ℚ)/100 - (FADE_IN + VIS_SECONDS)) / FADE_OUT) ∧
    (0 ≤ opacity 3 ∧ opacity 3 ≤ 1) ∧
    opacity (5/100) ≤ opacity (9/100) ∧
    opacity (540/100) ≤ opacity (532/100) := by
  refine ⟨?_, ?_, ?_, ?_, ?_, ?_, ?_⟩
  · have h := C2_opacity_piecewise.1 (on_event initApp evA 0) (9/100)
      (by rw [on_event_initApp_evA]; rfl)
      (by rw [on_event_initApp_evA]; ring)
      (by rw [on_event_initApp_evA]; norm_num)
      (by rw [on_event_initApp_evA]; norm_num [FADE_IN, VIS_SECONDS, FADE_OUT])
    exact h
  · exact C2_opacity_piecewise.2.1 (9/100) (by norm_num [FADE_IN])
  · exact C2_opacity_piecewise.2.2.1 3 (by norm_num [FADE_IN])
      (by norm_num [FADE_IN, VIS_SECONDS])
  · exact C2_opacity_piecewise.2.2.2.1 (532/100) (by norm_num [FADE_IN, VIS_SECONDS])
  · exact C2_opacity_piecewise.2.2.2.2.1 3 (by norm_num)
  · exact C2_opacity_piecewise.2.2.2.2.2.1 (5/100) (9/100) (by norm_num) (by norm_num)
      (by norm_num [FADE_IN])
  · exact C2_opacity_piecewise.2.2.2.2.2.2 (532/100) (540/100)
      (by norm_num [FADE_IN, VIS_SECONDS]) (by norm_num)

/-- C3 (amended): at every frame time at or after
`expiry_time = visible_until = anchor + FADE_IN + VIS_SECONDS + FADE_OUT`,
the frame performs no draw at all (not even a zero-alpha one) and leaves the
state — hence also the absence of drawing at every later frame — unchanged
until a new event arrives; the internal `fade_state` string, however, is
*not* reset to `"idle"`: it keeps its last value. -/
theorem C3_after_expiry :
    ∀ (st : AppState) (now : ℚ), st.visible_until ≤ now →
      frameAlpha st now = (st, none) := by
  intro st now h
  unfold frameAlpha
  rw [if_neg]
  intro hc
  exact absurd hc.2 (not_lt.2 h)

/-- Witness for `C3_after_expiry`: one frame past expiry of the `evA` state
draws nothing and changes nothing. -/
theorem C3_after_expiry_witness :
    frameAlpha (on_event initApp evA 0) 6 = (on_event initApp evA 0, none) :=
  C3_after_expiry (on_event initApp evA 0) 6
    (by rw [on_event_initApp_evA]; norm_num [FADE_IN, VIS_SECONDS, FADE_OUT])

/-- C3 counterexample: the claim's "the state machine is in state Idle" is
false for the code — after expiry `fade_state` keeps its last value `"out"`
(it is never reset to `"idle"`), even though opacity is 0 and nothing is
drawn. -/
theorem C3_counterexample :
    ((frameAlpha (frameAlpha (on_event initApp evA 0) (53/10)).1 6).1).fade_state = "out" ∧
    ((frameAlpha (frameAlpha (on_event initApp evA 0) (53/10)).1 6).1).fade_state ≠ "idle" := by
  have h1 : (frameAlpha (on_event initApp evA 0) (53/10)).1 =
      { event := some evA, fade_state := "out", fade_t0 := 0,
        visible_until := 0 + FADE_IN + VIS_SECONDS + FADE_OUT, file_mtime := 0,
        current_img_key := some (cacheKey evA), uploads := 1 } := by
    rw [on_event_initApp_evA]
    unfold frameAlpha
    rw [if_pos ⟨rfl, by norm_num [FADE_IN, VIS_SECONDS, FADE_OUT]⟩]
    rw [if_neg (by norm_num [FADE_IN]), if_neg (by norm_num [FADE_IN, VIS_SECONDS])]
  rw [h1]
  unfold frameAlpha
  rw [if_neg (by
    intro hc
    have h6 := hc.2
    norm_num [FADE_IN, VIS_SECONDS, FADE_OUT] at h6)]
  exact ⟨rfl, by decide⟩

theorem ensure_texture_noop (st : AppState) (ev : InfobarEvent)
    (h : st.current_img_key = some (cacheKey ev)) : ensure_texture st ev = st := by
  unfold ensure_texture
  rw [if_neg]
  simp [h]

theorem on_event_current_img_key (st : AppState) (ev : InfobarEvent) (now : ℚ) :
    (on_event st ev now).current_img_key = some (cacheKey ev) := by
  unfold on_event ensure_texture
  split_ifs with h
  · rfl
  · rw [not_ne_iff] at h
    exact h.symm

theorem on_event_event (st : AppState) (ev : InfobarEvent) (now : ℚ) :
    (on_event st ev now).event = some ev := by
  unfold on_event ensure_texture
  split_ifs <;> rfl

/-- C4: re-delivering the event parsed from the identical payload restarts
the fade timer (`fade_state = "in"`, `fade_t0 = now₂`, a fresh
`visible_until`) while everything else — in particular `current_img_key` and
the `uploads` count — is exactly that of the first delivery: no surface
regeneration or texture upload happens on the second delivery. -/
theorem C4_redelivery (pnow : Int) (d : List (String × JValue)) (ev : InfobarEvent)
    (st : AppState) (now1 now2 : ℚ)
    (_hparse : InfobarEvent.from_json pnow d = .ok ev) :
    on_event (on_event st ev now1) ev now2 =
      { on_event st ev now1 with
        fade_state := "in"
        fade_t0 := now2
        visible_until := now2 + FADE_IN + VIS_SECONDS + FADE_OUT } := by
  have hkey := on_event_current_img_key st ev now1
  have hev := on_event_event st ev now1
  generalize hg : on_event st ev now1 = st1 at hkey hev ⊢
  obtain ⟨e, fs, ft, vu, fm, ck, up⟩ := st1
  simp only at hev
  subst hev
  unfold on_event
  rw [ensure_texture_noop _ _ hkey]

/-- Witness for `C4_redelivery`: the concrete payload `payloadC` delivered
at times 0 and 1. -/
theorem C4_redelivery_witness :
    on_event (on_event initApp evC 0) evC 1 =
      { on_event initApp evC 0 with
        fade_state := "in"
        fade_t0 := 1
        visible_until := 1 + FADE_IN + VIS_SECONDS + FADE_OUT } :=
  C4_redelivery 0 payloadC evC initApp 0 1 rfl

/-- C5: the cache key ignores `start` — two events identical except for
`start` share it; events whose `end` (and `next_start`) components agree to
within less than one second after rounding share it; the key is exactly the
spec's tuple (channel number, channel name, title, end rounded to seconds,
next_title, next_start rounded to seconds); and `ensure_texture` with an
unchanged key is a no-op (no regeneration, no upload). -/
theorem C5_cachekey :
    (∀ ev1 ev2 : InfobarEvent,
      ev1.channel_number = ev2.channel_number → ev1.channel_name = ev2.channel_name →
      ev1.title = ev2.title → ev1.end_ = ev2.end_ → ev1.next_title = ev2.next_title →
      ev1.next_start = ev2.next_start → cacheKey ev1 = cacheKey ev2) ∧
    (∀ ev1 ev2 : InfobarEvent,
      ev1.channel_number = ev2.channel_number → ev1.channel_name = ev2.channel_name →
      ev1.title = ev2.title → ev1.next_title = ev2.next_title →
      |tsec ev1.end_ - tsec ev2.end_| < 1 → |nsKey ev1 - nsKey ev2| < 1 →
      cacheKey ev1 = cacheKey ev2) ∧
    (∀ ev : InfobarEvent, cacheKey ev = cacheKeySpec ev) ∧
    (∀ (st : AppState) (ev : InfobarEvent),
      st.current_img_key = some (cacheKey ev) → ensure_texture st ev = st) := by
  refine ⟨?_, ?_, ?_, ?_⟩
  · intro ev1 ev2 h1 h2 h3 h4 h5 h6
    simp [cacheKey, nsKey, h1, h2, h3, h4, h5, h6]
  · intro ev1 ev2 h1 h2 h3 h5 he hn
    rw [abs_lt] at he hn
    simp only [cacheKey, CacheKey.mk.injEq]
    exact ⟨h1, h2, h3, by omega, h5, by omega⟩
  · intro ev
    unfold cacheKey cacheKeySpec nsKey
    rfl
  · exact ensure_texture_noop

/-- Witness for `C5_cachekey`: `evA`/`evB` differ only in `start`, `evA`/`evD`
only by half a second of `end`; and the no-op `ensure_texture` on the state
that already holds `evA`'s key. -/
theorem C5_cachekey_witness :
    cacheKey evA = cacheKey evB ∧
    cacheKey evA = cacheKey evD ∧
    cacheKey evA = cacheKeySpec evA ∧
    ensure_texture (on_event initApp evA 0) evA = on_event initApp evA 0 := by
  refine ⟨?_, ?_, ?_, ?_⟩
  · exact C5_cachekey.1 evA evB rfl rfl rfl rfl rfl rfl
  · exact C5_cachekey.2.1 evA evD rfl rfl rfl rfl (by decide) (by decide)
  · exact C5_cachekey.2.2.1 evA
  · exact C5_cachekey.2.2.2 (on_event initApp evA 0) evA
      (on_event_current_img_key initApp evA 0)

/-- C6 counterexample: the formatter's full output is
`"Remaining time 02:05 Hours"`, not the bare string `"02:05"` the claim
names (shown at `now = 0`, `end` 7500 s = 2 h 05 min later). -/
theorem C6_counterexample : fmt_remaining 0 7500000000 ≠ "02:05" := by decide

/-- C6 (amended): for an `end` exactly 2 h 05 min in the future the formatter
produces `"Remaining time 02:05 Hours"` — the HH:MM field reads `"02:05"`,
hours and minutes zero-padded to two digits, floor-rounded from the
whole-second difference — and for every `end` at or before `now` the result
clamps to `"Remaining time 00:00 Hours"`, never a negative display. -/
theorem C6_remaining :
    (∀ now : Int, fmt_remaining now (now + 7500000000) = "Remaining time 02:05 Hours") ∧
    (∀ now e : Int, e ≤ now → fmt_remaining now e = "Remaining time 00:00 Hours") := by
  constructor
  · intro now
    unfold fmt_remaining
    rw [show now + 7500000000 - now = (7500000000 : Int) from by ring]
    rfl
  · intro now e h
    have h2 : (0 : Int) ≤ Int.tdiv (now - e) 1000000 :=
      Int.tdiv_nonneg (by omega) (by norm_num)
    have h3 : Int.tdiv (e - now) 1000000 = - Int.tdiv (now - e) 1000000 := by
      rw [show e - now = -(now - e) from by ring, Int.neg_tdiv]
    have hle : Int.tdiv (e - now) 1000000 ≤ 0 := by omega
    simp only [fmt_remaining]
    rcases lt_or_eq_of_le hle with hlt | heq
    · rw [if_pos hlt]
      rfl
    · rw [heq]
      rfl

/-- Witness for `C6_remaining` at concrete inputs. -/
theorem C6_remaining_witness :
    fmt_remaining 1000000 (1000000 + 7500000000) = "Remaining time 02:05 Hours" ∧
    fmt_remaining 5000000 3000000 = "Remaining time 00:00 Hours" :=
  ⟨C6_remaining.1 1000000, C6_remaining.2 5000000 3000000 (by norm_num)⟩

/-- C7: the file watcher reads and parses only when the modification time
strictly exceeds the last-seen one (an unchanged or older file leaves the
whole state alone); a missing file changes nothing; a malformed file (bad
JSON, or a payload `from_json` rejects) leaves the current-event slot
unchanged (only the recorded mtime advances) and the watcher still accepts a
later valid file; a valid newer file is delivered to `on_event`. -/
theorem C7_poll_file :
    (∀ (st : AppState) (now : ℚ) (nm : Int), poll_file st none now nm = st) ∧
    (∀ (st : AppState) (m now : ℚ) (c : Except Unit (List (String × JValue))) (nm : Int),
      m ≤ st.file_mtime → poll_file st (some (m, c)) now nm = st) ∧
    (∀ (st : AppState) (m now : ℚ) (nm : Int), st.file_mtime < m →
      poll_file st (some (m, .error ())) now nm = { st with file_mtime := m }) ∧
    (∀ (st : AppState) (m now : ℚ) (d : List (String × JValue)) (nm : Int),
      st.file_mtime < m → InfobarEvent.from_json nm d = .error () →
      poll_file st (some (m, .ok d)) now nm = { st with file_mtime := m }) ∧
    (∀ (st : AppState) (m now : ℚ) (d : List (String × JValue)) (ev : InfobarEvent) (nm : Int),
      st.file_mtime < m → InfobarEvent.from_json nm d = .ok ev →
      poll_file st (some (m, .ok d)) now nm = on_event { st with file_mtime := m } ev now) := by
  refine ⟨?_, ?_, ?_, ?_, ?_⟩
  · intro st now nm
    rfl
  · intro st m now c nm h
    simp only [poll_file]
    rw [if_neg (not_lt.2 h)]
  · intro st m now nm h
    simp only [poll_file]
    rw [if_pos h]
  · intro st m now d nm h hj
    simp only [poll_file]
    rw [if_pos h, hj]
  · intro st m now d ev nm h hp
    simp only [poll_file]
    rw [if_pos h, hp]

/-- Witness for `C7_poll_file` at concrete inputs: missing file, stale mtime,
malformed payload, and a valid newer payload against the initial state. -/
theorem C7_poll_file_witness :
    poll_file initApp none 0 0 = initApp ∧
    poll_file initApp (some (0, .ok payloadC)) 0 0 = initApp ∧
    poll_file initApp (some (1, .ok [("channel_number", JValue.jstr "x")])) 0 0 =
      { initApp with file_mtime := 1 } ∧
    poll_file initApp (some (1, .ok payloadC)) 0 0 =
      on_event { initApp with file_mtime := 1 } evC 0 := by
  refine ⟨?_, ?_, ?_, ?_⟩
  · exact C7_poll_file.1 initApp 0 0
  · exact C7_poll_file.2.1 initApp 0 0 (.ok payloadC) 0 (by norm_num [initApp])
  · exact C7_poll_file.2.2.2.1 initApp 1 0 [("channel_number", JValue.jstr "x")] 0
      (by norm_num [initApp]) rfl
  · exact C7_poll_file.2.2.2.2 initApp 1 0 payloadC evC 0 (by norm_num [initApp]) rfl

/-- C8: every invocation of `send_infobar_event` creates the runtime
directory, writes the full JSON payload (all provided fields) to the event
file, and then best-effort sends the *same* payload as a UDP datagram; a
send failure (`OSError`) is swallowed — the call still returns normally with
the file written — and on success the datagram equals the file content. -/
theorem C8_send_infobar_event :
    ∀ (now_ts now cn : Int) (name title : String) (start end_ : Option Int)
      (next_title : JValue) (next_start : Option Int) (udp_fails : Bool) (w : World),
      ∃ p, (send_infobar_event now_ts now cn name title start end_ next_title next_start udp_fails w).file = some p ∧
        (send_infobar_event now_ts now cn name title start end_ next_title next_start udp_fails w).dirs_created = true ∧
        (send_infobar_event now_ts now cn name title start end_ next_title next_start udp_fails w).sent =
          (if udp_fails then w.sent else w.sent ++ [p]) ∧
        dget p "ts" = .jint now_ts ∧ dget p "channel_number" = .jint cn ∧
        dget p "channel_name" = .jstr name ∧ dget p "title" = .jstr title ∧
        dget p "start" = .jstr (_iso now start) ∧ dget p "end" = .jstr (_iso now end_) := by
  intro now_ts now cn name title start end_ next_title next_start udp_fails w
  cases udp_fails with
  | false => exact ⟨_, rfl, rfl, rfl, rfl, rfl, rfl, rfl, rfl, rfl⟩
  | true => exact ⟨_, rfl, rfl, rfl, rfl, rfl, rfl, rfl, rfl, rfl⟩

/-- C9: the wrapper always returns exactly the original function's return
value and is total; no notification happens when no dict payload is found,
when extraction raises, or when the extracted channel name or current title
is empty — those failures are swallowed with the world unchanged.  The
extractor itself tolerates several key conventions and defaults absent
fields to zero/empty, as the two concrete evaluations show. -/
theorem C9_wrapper :
    (∀ (α : Type) (rv : α) (args : List JValue) (kwargs : List (String × JValue))
      (now_ts now : Int) (udp : Bool) (w : World),
      (update_status_socket rv args kwargs now_ts now udp w).1 = rv) ∧
    (∀ (α : Type) (rv : α) (args : List JValue) (kwargs : List (String × JValue))
      (now_ts now : Int) (udp : Bool) (w : World),
      findPayload args kwargs = none →
      update_status_socket rv args kwargs now_ts now udp w = (rv, w)) ∧
    (∀ (α : Type) (rv : α) (args : List JValue) (kwargs : List (String × JValue))
      (now_ts now : Int) (udp : Bool) (w : World) (p : List (String × JValue)),
      findPayload args kwargs = some (.jdict p) → _extract p = .error () →
      update_status_socket rv args kwargs now_ts now udp w = (rv, w)) ∧
    (∀ (α : Type) (rv : α) (args : List JValue) (kwargs : List (String × JValue))
      (now_ts now : Int) (udp : Bool) (w : World) (p : List (String × JValue))
      (r : Int × String × String × Option Int × Option Int × JValue × Option Int),
      findPayload args kwargs = some (.jdict p) → _extract p = .ok r →
      (r.2.1 = "" ∨ r.2.2.1 = "") →
      update_status_socket rv args kwargs now_ts now udp w = (rv, w)) ∧
    (_extract [] = .ok (0, "", "", none, none, .jnull, none)) ∧
    (_extract [("channelNum", .jint 7), ("channel", .jdict [("name", .jstr "TV")]),
      ("current", .jdict [("name", .jstr "Show")])] =
      .ok (7, "TV", "Show", none, none, .jnull, none)) := by
  refine ⟨?_, ?_, ?_, ?_, rfl, rfl⟩
  · intro α rv args kwargs now_ts now udp w
    unfold update_status_socket
    repeat' split <;> try rfl
  · intro α rv args kwargs now_ts now udp w h
    simp only [update_status_socket, h]
  · intro α rv args kwargs now_ts now udp w p h1 h2
    simp only [update_status_socket, h1]
    split_ifs with ht
    · rw [h2]
    · rfl
  · intro α rv args kwargs now_ts now udp w p r h1 h2 h3
    obtain ⟨cn, cname, ntitle, rest⟩ := r
    simp only [update_status_socket, h1]
    split_ifs with ht
    · rw [h2]
      simp only []
      rw [if_neg]
      rintro ⟨hn, htl⟩
      rcases h3 with h3 | h3
      · exact hn h3
      · exact htl h3
    · rfl

/-- Witness for `C9_wrapper` at concrete inputs: no payload, an
extraction-raising payload, and an empty-title payload all leave the world
unchanged while the original return value 42 passes through. -/
theorem C9_wrapper_witness :
    (update_status_socket (42 : Nat) [] [] 0 0 false w0).1 = 42 ∧
    update_status_socket (42 : Nat) [] [] 0 0 false w0 = (42, w0) ∧
    update_status_socket (42 : Nat) [JValue.jdict [("now", JValue.jint 5)]] [] 0 0 false w0 =
      (42, w0) ∧
    update_status_socket (42 : Nat) [JValue.jdict [("channel_name", JValue.jstr "TV")]] [] 0 0 false w0 =
      (42, w0) := by
  refine ⟨?_, ?_, ?_, ?_⟩
  · exact C9_wrapper.1 Nat 42 [] [] 0 0 false w0
  · exact C9_wrapper.2.1 Nat 42 [] [] 0 0 false w0 rfl
  · exact C9_wrapper.2.2.1 Nat 42 [JValue.jdict [("now", JValue.jint 5)]] [] 0 0 false w0
      [("now", JValue.jint 5)] rfl rfl
  · exact C9_wrapper.2.2.2.1 Nat 42 [JValue.jdict [("channel_name", JValue.jstr "TV")]] [] 0 0
      false w0 [("channel_name", JValue.jstr "TV")]
      (0, "TV", "", none, none, .jnull, none) rfl rfl (Or.inr rfl)

theorem chLe_total : ∀ a b : List Char, chLe a b = true ∨ chLe b a = true := by
  intro a
  induction a with
  | nil =>
    intro b
    left
    rfl
  | cons c cs ih =>
    intro b
    cases b with
    | nil =>
      right
      rfl
    | cons d ds =>
      by_cases hcd : c = d
      · subst hcd
        rcases ih ds with h | h
        · left
          simpa [chLe] using h
        · right
          simpa [chLe] using h
      · rcases lt_or_gt_of_ne hcd with h | h
        · left
          simp [chLe, hcd, h]
        · right
          simp [chLe, Ne.symm hcd, h]

theorem chLe_trans : ∀ a b c : List Char,
    chLe a b = true → chLe b c = true → chLe a c = true := by
  intro a
  induction a with
  | nil =>
    intro b c _ _
    rfl
  | cons x xs ih =>
    intro b c h1 h2
    cases b with
    | nil => simp [chLe] at h1
    | cons y ys =>
      cases c with
      | nil => simp [chLe] at h2
      | cons z zs =>
        by_cases hxy : x = y <;> by_cases hyz : y = z
        · subst hxy
          subst hyz
          simp only [chLe, if_pos rfl] at h1 h2 ⊢
          exact ih ys zs h1 h2
        · subst hxy
          simp only [chLe, if_pos rfl] at h1
          simp only [chLe, if_neg hyz] at h2 ⊢
          exact h2
        · subst hyz
          simp only [chLe, if_neg hxy] at h1
          simp only [chLe, if_neg hxy] at h1 ⊢
          exact h1
        · simp only [chLe, if_neg hxy] at h1
          simp only [chLe, if_neg hyz] at h2
          have hxz : x < z := lt_trans (of_decide_eq_true h1) (of_decide_eq_true h2)
          simp only [chLe, if_neg (ne_of_lt hxz)]
          exact decide_eq_true hxz

instance : IsTotal String (fun a b => strLe a b = true) :=
  ⟨fun a b => chLe_total a.data b.data⟩

instance : IsTrans String (fun a b => strLe a b = true) :=
  ⟨fun a b c => chLe_trans a.data b.data c.data⟩

theorem get_next_at (s : SeriesIndex) (h : s.episodes ≠ []) (i : Nat)
    (hi : i < s.episodes.length) :
    SeriesIndex.get_next { s with _index := i } =
      .ok (some s.episodes[i], { s with _index := (i + 1) % s.episodes.length }) := by
  unfold SeriesIndex.get_next
  rw [if_neg (by simp [List.isEmpty_iff, h])]
  rw [show ({ s with _index := i } : SeriesIndex).episodes[({ s with _index := i } : SeriesIndex)._index]? = s.episodes[i]? from rfl]
  rw [List.getElem?_eq_getElem hi]

theorem runN_cycle (s : SeriesIndex) (h : s.episodes ≠ []) (h0 : s._index = 0) :
    ∀ k, SeriesIndex.runN s k = .ok { s with _index := k % s.episodes.length } := by
  have hn : 0 < s.episodes.length := List.length_pos.2 h
  intro k
  induction k with
  | zero =>
    rw [Nat.zero_mod]
    conv_rhs => rw [← h0]
    rfl
  | succ k ih =>
    have hk : k % s.episodes.length < s.episodes.length := Nat.mod_lt _ hn
    have hmod : (k % s.episodes.length + 1) % s.episodes.length =
        (k + 1) % s.episodes.length :=
      Nat.ModEq.add_right 1 (Nat.mod_modEq k _)
    simp only [SeriesIndex.runN, ih, get_next_at s h _ hk]
    rw [hmod]

theorem outN_cycle (s : SeriesIndex) (h : s.episodes ≠ []) (h0 : s._index = 0) (k : Nat) :
    SeriesIndex.outN s k = .ok (s.episodes[k % s.episodes.length]?) := by
  have hn : 0 < s.episodes.length := List.length_pos.2 h
  have hk : k % s.episodes.length < s.episodes.length := Nat.mod_lt _ hn
  simp only [SeriesIndex.outN, runN_cycle s h h0 k, get_next_at s h _ hk]
  rw [List.getElem?_eq_getElem hk]

/-- C10: `get_next` yields `None` exactly on an empty episode list; every
`get_next` step keeps the position index inside `[0, episode count)` (and
`populate` starts it at 0); `populate` establishes the alphanumerically
sorted order (a sorted permutation of its input); and from a populated state
the successive `get_next` values cycle through the episode list in that
order — the `k`-th call returns episode `k mod n`, so after
`get_series_length` calls the first episode returns again. -/
theorem C10_series_cycle :
    (∀ s : SeriesIndex, (∃ s', SeriesIndex.get_next s = .ok (none, s')) ↔ s.episodes = []) ∧
    (∀ (s : SeriesIndex) (o : Option String) (s' : SeriesIndex),
      SeriesIndex.get_next s = .ok (o, s') →
      s'.episodes = [] ∨ s'._index < s'.episodes.length) ∧
    (∀ (s : SeriesIndex) (l : List String),
      (SeriesIndex.populate s l)._index = 0 ∧
      (SeriesIndex.populate s l).episodes.Sorted (fun a b => strLe a b = true) ∧
      (SeriesIndex.populate s l).episodes.Perm l) ∧
    (∀ (s : SeriesIndex) (l : List String), (SeriesIndex.populate s l).episodes ≠ [] →
      ∀ k, SeriesIndex.outN (SeriesIndex.populate s l) k =
        .ok ((SeriesIndex.populate s l).episodes[k % (SeriesIndex.populate s l).episodes.length]?)) ∧
    (∀ (s : SeriesIndex) (l : List String), (SeriesIndex.populate s l).episodes ≠ [] →
      SeriesIndex.outN (SeriesIndex.populate s l)
          (SeriesIndex.get_series_length (SeriesIndex.populate s l)) =
        .ok ((SeriesIndex.populate s l).episodes[0]?)) := by
  refine ⟨?_, ?_, ?_, ?_, ?_⟩
  · intro s
    constructor
    · rintro ⟨s', hs⟩
      unfold SeriesIndex.get_next at hs
      by_cases he : s.episodes.isEmpty
      · exact List.isEmpty_iff.1 he
      · rw [if_neg he] at hs
        cases hg : s.episodes[s._index]? with
        | none =>
          rw [hg] at hs
          cases hs
        | some e =>
          rw [hg] at hs
          simp at hs
    · intro he
      refine ⟨s, ?_⟩
      unfold SeriesIndex.get_next
      rw [if_pos (by simp [he])]
  · intro s o s' hs
    unfold SeriesIndex.get_next at hs
    by_cases he : s.episodes.isEmpty
    · rw [if_pos he] at hs
      simp at hs
      left
      rw [← hs.2]
      exact List.isEmpty_iff.1 he
    · rw [if_neg he] at hs
      cases hg : s.episodes[s._index]? with
      | none =>
        rw [hg] at hs
        cases hs
      | some e =>
        rw [hg] at hs
        simp at hs
        right
        rw [← hs.2]
        have hne : s.episodes ≠ [] := fun hh => he (by simp [hh])
        exact Nat.mod_lt _ (List.length_pos.2 hne)
  · intro s l
    refine ⟨rfl, ?_, ?_⟩
    · exact List.sorted_insertionSort _ l
    · exact List.perm_insertionSort _ l
  · intro s l h k
    exact outN_cycle _ h rfl k
  · intro s l h
    have := outN_cycle (SeriesIndex.populate s l) h rfl
      (SeriesIndex.get_series_length (SeriesIndex.populate s l))
    rwa [show SeriesIndex.get_series_length (SeriesIndex.populate s l) %
        (SeriesIndex.populate s l).episodes.length = 0 from Nat.mod_self _] at this

/-- Witness for `C10_series_cycle`: populating with `["b", "a"]` sorts to
`["a", "b"]`; the first four `get_next` values cycle `a, b, a, b`, and the
2nd (= length-th) call returns the first episode again; an empty index
yields `None`. -/
theorem C10_series_cycle_witness :
    (∃ s', SeriesIndex.get_next ⟨"s", [], 0⟩ = .ok (none, s')) ∧
    SeriesIndex.outN (SeriesIndex.populate ⟨"s", [], 0⟩ ["b", "a"]) 0 = .ok (some "a") ∧
    SeriesIndex.outN (SeriesIndex.populate ⟨"s", [], 0⟩ ["b", "a"]) 1 = .ok (some "b") ∧
    SeriesIndex.outN (SeriesIndex.populate ⟨"s", [], 0⟩ ["b", "a"]) 2 = .ok (some "a") := by
  refine ⟨?_, ?_, ?_, ?_⟩
  · exact (C10_series_cycle.1 ⟨"s", [], 0⟩).2 rfl
  · exact C10_series_cycle.2.2.2.1 ⟨"s", [], 0⟩ ["b", "a"] (by decide) 0
  · exact C10_series_cycle.2.2.2.1 ⟨"s", [], 0⟩ ["b", "a"] (by decide) 1
  · exact C10_series_cycle.2.2.2.1 ⟨"s", [], 0⟩ ["b", "a"] (by decide) 2
